import Mathlib

/-!
Verification development for the SquadSafe agent repository.

The subject of the claims is the command dispatch and validation layer in
`src/squadSafeActionProvider.ts`: seven decorator-registered actions
(`propose`, `voteOnProposal`, `executeProposal`, `addMember`, `removeMember`,
`setMinVotes`, `setVotingPeriod`) that validate untrusted arguments and turn
them into a single `walletProvider.sendTransaction` call against a fixed
vault contract address.

The embedding below is shallow and executable:

* JavaScript `string | number` union values become `StrNum`; JavaScript
  numbers are modelled as exact rationals (IEEE-754 rounding is not
  modelled; no claim input depends on it).
* The viem helpers the provider calls (`isAddress` with its default strict
  EIP-55 checksum check, `parseEther`/`parseUnits` with its rounding rules,
  and the coercions `encodeFunctionData` applies to its arguments) are
  translated from the viem sources, including a full Nat-based Keccak-256
  so that the EIP-55 checksum is computed and not stubbed.
* `encodeFunctionData` output is modelled as the free constructor of the
  function name and its coerced argument values (`CallData`); ABI byte
  serialisation is injective on that data, so nothing the claims state is
  lost by this representation.
* Thrown JavaScript exceptions become `Except.error` carrying a `JsError`;
  the transaction submitter is a function that may itself fail. Each action
  returns its result together with the list of submitted transaction
  requests, so claims about "the submitter is never invoked" are claims
  about that trace.
-/

set_option maxRecDepth 200000

namespace SquadSafe

/-! ## Keccak-256 (needed by the EIP-55 checksum inside viem `isAddress`) -/

/-- All 64-bit lane arithmetic is done on `Nat` masked to 64 bits. -/
def mask64 : Nat := 2 ^ 64 - 1

/-- Left rotation of a 64-bit lane. -/
def rotl64 (x n : Nat) : Nat := ((x <<< n) ||| (x >>> (64 - n))) &&& mask64

/-- Lane access in a 25-element state list (index `x + 5 * y`). -/
def lane (st : List Nat) (i : Nat) : Nat := st.getD i 0

/-- Keccak θ step. -/
def thetaStep (st : List Nat) : List Nat :=
  let c := (List.range 5).map fun x =>
    lane st x ^^^ lane st (x + 5) ^^^ lane st (x + 10) ^^^ lane st (x + 15) ^^^ lane st (x + 20)
  let d := (List.range 5).map fun x =>
    (c.getD ((x + 4) % 5) 0) ^^^ rotl64 (c.getD ((x + 1) % 5) 0) 1
  (List.range 25).map fun i => lane st i ^^^ d.getD (i % 5) 0

/-- Combined ρ and π steps, tabulated in destination order: entry `j` is the
pair (source lane, rotation) for destination lane `j`, derived from
`(x, y) ↦ (y, 2x + 3y mod 5)` and the standard rotation offsets. -/
def rhoPiTable : List (Nat × Nat) :=
  [(0, 0), (6, 44), (12, 43), (18, 21), (24, 14),
   (3, 28), (9, 20), (10, 3), (16, 45), (22, 61),
   (1, 1), (7, 6), (13, 25), (19, 8), (20, 18),
   (4, 27), (5, 36), (11, 10), (17, 15), (23, 56),
   (2, 62), (8, 55), (14, 39), (15, 41), (21, 2)]

/-- Keccak ρ and π steps. -/
def rhoPiStep (st : List Nat) : List Nat :=
  rhoPiTable.map fun sr => rotl64 (lane st sr.1) sr.2

/-- Keccak χ step. -/
def chiStep (st : List Nat) : List Nat :=
  (List.range 25).map fun i =>
    let x := i % 5
    let y := i / 5
    lane st i ^^^ ((mask64 ^^^ lane st ((x + 1) % 5 + 5 * y)) &&& lane st ((x + 2) % 5 + 5 * y))

/-- Keccak-f[1600] round constants. -/
def rcList : List Nat :=
  [0x1, 0x8082, 0x800000000000808a,
   0x8000000080008000, 0x808b, 0x80000001,
   0x8000000080008081, 0x8000000000008009, 0x8a,
   0x88, 0x80008009, 0x8000000a,
   0x8000808b, 0x800000000000008b, 0x8000000000008089,
   0x8000000000008003, 0x8000000000008002, 0x8000000000000080,
   0x800a, 0x800000008000000a, 0x8000000080008081,
   0x8000000000008080, 0x80000001, 0x8000000080008008]

/-- One Keccak-f round: θ, ρ, π, χ, then ι on lane 0. -/
def keccakRound (st : List Nat) (rc : Nat) : List Nat :=
  let st1 := chiStep (rhoPiStep (thetaStep st))
  (lane st1 0 ^^^ rc) :: st1.tail

/-- The 24-round Keccak-f[1600] permutation. -/
def keccakF (st : List Nat) : List Nat := rcList.foldl keccakRound st

/-- Original Keccak padding (domain byte 0x01, final bit 0x80), rate 136. -/
def padKeccak (bytes : List Nat) : List Nat :=
  let padLen := 136 - bytes.length % 136
  if padLen = 1 then bytes ++ [0x81]
  else bytes ++ 0x01 :: (List.replicate (padLen - 2) 0 ++ [0x80])

/-- Little-endian 64-bit lane read from a byte list at offset `off`. -/
def laneOfBytes (bytes : List Nat) (off : Nat) : Nat :=
  (List.range 8).foldl (fun acc j => acc + bytes.getD (off + j) 0 * 2 ^ (8 * j)) 0

/-- Absorb one 136-byte block (17 lanes) and permute. -/
def absorbBlock (st : List Nat) (block : List Nat) : List Nat :=
  keccakF ((List.range 25).map fun i =>
    if i < 17 then lane st i ^^^ laneOfBytes block (8 * i) else lane st i)

/-- Absorb a padded message, one 136-byte block at a time. The first argument
is fuel (structural recursion); any fuel at least the byte count suffices. -/
def absorbAll : Nat → List Nat → List Nat → List Nat
  | 0, st, _ => st
  | _, st, [] => st
  | fuel + 1, st, bytes => absorbAll fuel (absorbBlock st (bytes.take 136)) (bytes.drop 136)

/-- Keccak-256 of a byte list (the Ethereum hash: original 0x01 padding). -/
def keccak256 (bytes : List Nat) : List Nat :=
  let padded := padKeccak bytes
  let st := absorbAll padded.length (List.replicate 25 0) padded
  (List.range 32).map fun i => (lane st (i / 8) >>> (8 * (i % 8))) &&& 255

/-! ## viem address validation (`isAddress`, default `strict: true`) -/

/-- One character of `[0-9a-fA-F]`. -/
def isHexChar (c : Char) : Bool :=
  c.isDigit || ('a' ≤ c && c ≤ 'f') || ('A' ≤ c && c ≤ 'F')

/-- The viem address regex `^0x[a-fA-F0-9]{40}$`. -/
def addressFormatOk (s : String) : Bool :=
  match s.data with
  | '0' :: 'x' :: rest => rest.length == 40 && rest.all isHexChar
  | _ => false

/-- ASCII lowercasing, modelling `String.prototype.toLowerCase` on the hex
strings this code applies it to. -/
def lowerAscii (s : String) : String := String.mk (s.data.map Char.toLower)

/-- Hex-nibble `i` of a hash byte list (even index: high nibble). -/
def nibbleAt (hash : List Nat) (i : Nat) : Nat :=
  if i % 2 = 0 then (hash.getD (i / 2) 0) / 16 else (hash.getD (i / 2) 0) % 16

/-- viem `checksumAddress`: keccak over the lowercased 40-char hex part
(as ASCII bytes), then uppercase every character whose nibble is at least 8. -/
def checksumAddress (address : String) : String :=
  let hexAddr := (address.data.drop 2).map Char.toLower
  let hash := keccak256 (hexAddr.map Char.toNat)
  let upd := (List.range hexAddr.length).map fun i =>
    if 8 ≤ nibbleAt hash i then (hexAddr.getD i ' ').toUpper else hexAddr.getD i ' '
  String.mk ('0' :: 'x' :: upd)

/-- viem `isAddress` with its default `strict: true`: the regex must match,
and the string must be all-lowercase or equal to its EIP-55 checksum form. -/
def isAddress (a : String) : Bool :=
  addressFormatOk a && (lowerAscii a == a || checksumAddress a == a)

/-! ## JavaScript values and coercions used by the provider -/

/-- The `string | number` argument union of the zod schemas. JavaScript
numbers are modelled as exact rationals. -/
inductive StrNum where
  | str (s : String)
  | num (q : ℚ)
deriving DecidableEq, Repr

/-- Decimal digit characters as a natural number (empty list is 0, matching
`BigInt` on an empty digit string). -/
def digitsToNat (cs : List Char) : Nat :=
  cs.foldl (fun a c => a * 10 + (c.toNat - 48)) 0

/-- Split a character list into its leading digit run and the remainder. -/
def takeDigits (cs : List Char) : List Char × List Char :=
  (cs.takeWhile Char.isDigit, cs.dropWhile Char.isDigit)

/-- Whitespace trimming, modelling the trim JavaScript number conversion
performs on strings. -/
def trimWs (cs : List Char) : List Char :=
  ((cs.dropWhile Char.isWhitespace).reverse.dropWhile Char.isWhitespace).reverse

/-- Unsigned decimal literal: `digits [. digits] [(e|E) [sign] digits]`,
requiring at least one mantissa digit. Returns the exact rational value,
assembled with a single `mkRat` from the digit groups and the exponent. -/
def parseDecCore (cs : List Char) : Option ℚ :=
  let (ip, rest1) := takeDigits cs
  let (fp, rest2) :=
    match rest1 with
    | '.' :: t => takeDigits t
    | _ => ([], rest1)
  if ip.isEmpty && fp.isEmpty then none
  else
    let mantNum := digitsToNat ip * 10 ^ fp.length + digitsToNat fp
    match rest2 with
    | [] => some (mkRat mantNum (10 ^ fp.length))
    | e :: t =>
      if e = 'e' ∨ e = 'E' then
        let (eneg, t2) : Bool × List Char :=
          match t with
          | '+' :: u => (false, u)
          | '-' :: u => (true, u)
          | _ => (false, t)
        let (ed, t3) := takeDigits t2
        if ed.isEmpty ∨ ¬ t3.isEmpty then none
        else if eneg then some (mkRat mantNum (10 ^ (fp.length + digitsToNat ed)))
        else some (mkRat (mantNum * 10 ^ digitsToNat ed) (10 ^ fp.length))
      else none

/-- JavaScript `Number(string)`: trimmed; empty is 0; otherwise an optional
sign and a decimal literal. `none` models NaN. Hexadecimal, octal, binary
and Infinity literals are not modelled (they are treated as NaN here; for
the comparisons the provider performs, `<= 0` and `< 0`, those values
behave like NaN, i.e. the comparison is false, except for negative
infinities, which no claim exercises). Floating-point rounding is not
modelled: values are exact rationals. -/
def jsNumberOfString (s : String) : Option ℚ :=
  let t := trimWs s.data
  if t.isEmpty then some 0
  else
    match t with
    | '+' :: rest => parseDecCore rest
    | '-' :: rest => (parseDecCore rest).map Neg.neg
    | cs => parseDecCore cs

/-- JavaScript `Number(x)` on a `string | number` value. -/
def jsNumber : StrNum → Option ℚ
  | .num q => some q
  | .str s => jsNumberOfString s

/-- JavaScript `x <= 0` where `x` may be NaN (NaN comparisons are false). -/
def jsLeZero (x : Option ℚ) : Bool :=
  match x with
  | none => false
  | some q => q ≤ 0

/-- JavaScript `x < 0` where `x` may be NaN (NaN comparisons are false). -/
def jsLtZero (x : Option ℚ) : Bool :=
  match x with
  | none => false
  | some q => q < 0

/-- JavaScript truthiness of a `string | number` value: 0 and the empty
string are falsy. (NaN, also falsy, has no representative here since
numbers are rationals.) -/
def truthy : StrNum → Bool
  | .num q => q != 0
  | .str s => s != ""

/-! ## viem `parseUnits` / `parseEther` -/

/-- Strip trailing zero characters, modelling `fraction.replace(/(0+)$/, "")`. -/
def stripTrailingZeros (cs : List Char) : List Char :=
  (cs.reverse.dropWhile (fun c => c == '0')).reverse

/-- The viem `parseUnits` input guard, regex `^(-?)([0-9]*)\.?([0-9]*)$`. -/
def decStrOk (s : String) : Bool :=
  let cs := match s.data with
    | '-' :: t => t
    | cs => cs
  let (_, r1) := takeDigits cs
  match r1 with
  | [] => true
  | '.' :: t => (takeDigits t).2.isEmpty
  | _ => false

/-- Whether the fractional digit string `cs`, read as `0.cs`, is at least
one half. Models the `Math.round` calls in viem `parseUnits` (round half
up); the exact rational comparison stands in for the float comparison, which
agrees on every input with a reachable difference in this code. -/
def fracHalfOrMore (cs : List Char) : Bool :=
  10 ^ cs.length ≤ 2 * digitsToNat cs

/-- Decimal digit characters of a natural number. -/
def natToDigits (n : Nat) : List Char := (toString n).data

/-- Left-pad with zero characters to length `n` (`String.prototype.padStart`). -/
def leftPadZeros (cs : List Char) (n : Nat) : List Char :=
  List.replicate (n - cs.length) '0' ++ cs

/-- viem `parseUnits(value, decimals)`: `none` models the thrown
`InvalidDecimalNumberError` when the regex guard fails; otherwise the digit
manipulation of the viem implementation, including its rounding of excess
fractional digits and the resulting carry. The final
`BigInt(sign + integer + fraction)` is computed arithmetically. -/
def parseUnits (value : String) (decimals : Nat) : Option Int :=
  if ¬ decStrOk value then none
  else
    let cs := value.data
    let integer0 := cs.takeWhile (fun c => c != '.')
    let fraction0 := if cs.contains '.' then (cs.dropWhile (fun c => c != '.')).drop 1 else ['0']
    let negative := integer0.headD ' ' = '-'
    let integerDigits := if negative then integer0.drop 1 else integer0
    let intVal := digitsToNat integerDigits
    let fraction1 := stripTrailingZeros fraction0
    let sign : Int := if negative then -1 else 1
    if decimals = 0 then
      some (sign * (intVal + (if fracHalfOrMore fraction1 then 1 else 0)))
    else if decimals < fraction1.length then
      let left := fraction1.take (decimals - 1)
      let unit := (fraction1.drop (decimals - 1)).take 1
      let right := fraction1.drop decimals
      let rounded := digitsToNat unit + (if fracHalfOrMore right then 1 else 0)
      let fraction2 :=
        if 9 < rounded then leftPadZeros (natToDigits (digitsToNat left + 1) ++ ['0']) (left.length + 1)
        else left ++ natToDigits rounded
      let (intVal2, fraction3) :=
        if decimals < fraction2.length then (intVal + 1, fraction2.drop 1) else (intVal, fraction2)
      let fractionFinal := fraction3.take decimals
      some (sign * (intVal2 * 10 ^ decimals + digitsToNat fractionFinal))
    else
      let fractionFinal := fraction1 ++ List.replicate (decimals - fraction1.length) '0'
      some (sign * (intVal * 10 ^ decimals + digitsToNat fractionFinal))

/-- viem `parseEther(value)` is `parseUnits(value, 18)`. -/
def parseEther (value : String) : Option Int := parseUnits value 18

/-! ## Errors, call data, transaction requests -/

/-- The exceptions that can escape an action method, each constructor one
concrete JavaScript throw site:
`thrown` is a `new Error(msg)` thrown by the provider itself;
`invalidDecimal` is the viem `InvalidDecimalNumberError` from `parseEther`;
`rangeNotInteger` is the `RangeError` from `BigInt(x)` on a non-integer
number; `bigIntSyntaxError` is the `SyntaxError` from `BigInt(s)` on a
non-numeric string; `invalidAddressAbi` is the viem `InvalidAddressError`
from ABI address encoding; `outOfRange` is the viem
`IntegerOutOfRangeError` for uint256 encoding; `submitterRaised` is an
exception propagated out of `walletProvider.sendTransaction`. -/
inductive JsError where
  | thrown (msg : String)
  | invalidDecimal (value : String)
  | rangeNotInteger (value : ℚ)
  | bigIntSyntaxError (value : String)
  | invalidAddressAbi (value : String)
  | outOfRange (value : Int)
  | submitterRaised (msg : String)
deriving DecidableEq, Repr

/-- The `{ success, txHash }` object every action returns on the non-throwing
path. The source always writes `success: true`; the field is kept so that
the absence of any `success: false` return is a provable statement. -/
structure ActionResult where
  success : Bool
  txHash : String
deriving DecidableEq, Repr

/-- The output of viem `encodeFunctionData`, modelled as the free constructor
of the function name and its coerced argument values. ABI serialisation is
injective on this data, and no action constructs call data any other way,
so this representation is faithful for every property stated below. -/
inductive CallData where
  | propose (token : String) (amount : Int) (toAddr : String) (reason : String)
  | vote (proposalId : Int) (support : Bool)
  | execute (proposalId : Int)
  | addMember (newMember : String)
  | removeMember (member : String)
  | setMinVotes (minVotes : Int)
  | setVotingPeriod (period : Int)
deriving DecidableEq, Repr

/-- The argument object of `walletProvider.sendTransaction`. The source field
`to` is named `toAddr` here because `to` is a reserved word in Lean. -/
structure TxRequest where
  toAddr : String
  value : Int
  data : CallData
deriving DecidableEq, Repr

/-- The transaction submitter (`walletProvider.sendTransaction`): returns the
transaction hash, or fails with a raw error message. -/
def Submitter : Type := TxRequest → Except String String

/-! ## Coercions inside viem `encodeFunctionData` -/

/-- JavaScript `BigInt(q)` on a number: integers convert, anything else
throws `RangeError`. -/
def jsBigIntOfNumber (q : ℚ) : Except JsError Int :=
  if q.den = 1 then .ok q.num else .error (.rangeNotInteger q)

/-- JavaScript `BigInt(s)` on a string: trimmed; empty is 0; otherwise an
optional sign and decimal digits; anything else throws `SyntaxError`.
Hexadecimal, octal and binary literal forms are not modelled (mapped to the
error case); no claim input uses them. -/
def jsBigIntOfString (s : String) : Except JsError Int :=
  let t := trimWs s.data
  if t.isEmpty then .ok 0
  else
    let (sgn, ds) : Int × List Char :=
      match t with
      | '-' :: r => (-1, r)
      | '+' :: r => (1, r)
      | r => (1, r)
    if !ds.isEmpty && ds.all Char.isDigit then .ok (sgn * digitsToNat ds)
    else .error (.bigIntSyntaxError s)

/-- The `BigInt(value)` coercion viem `numberToHex` applies to a
`string | number` uint argument. -/
def jsBigInt : StrNum → Except JsError Int
  | .num q => jsBigIntOfNumber q
  | .str s => jsBigIntOfString s

/-- The viem constant `maxUint256`, precomputed as in the viem sources. -/
def maxUint256 : Int :=
  115792089237316195423570985008687907853269984665640564039457584007913129639935

/-- The uint256 range check of viem `numberToHex` (size 32, unsigned). -/
def uint256Bound (n : Int) : Except JsError Int :=
  if 0 ≤ n ∧ n ≤ maxUint256 then .ok n else .error (.outOfRange n)

/-- ABI address-parameter encoding in viem: a format check
(`isAddress` with `strict: false`) and lowercasing of the encoded value. -/
def abiAddress (s : String) : Except JsError String :=
  if addressFormatOk s then .ok (lowerAscii s) else .error (.invalidAddressAbi s)

/-- ABI uint256-parameter encoding of a raw `string | number` argument. -/
def abiUint256 (v : StrNum) : Except JsError Int := do
  let n ← jsBigInt v
  uint256Bound n

/-- Line 98 of the provider: `typeof amount === "string" ? parseEther(amount)
: BigInt(amount)`. -/
def coerceAmount : StrNum → Except JsError Int
  | .str s =>
    match parseEther s with
    | some n => .ok n
    | none => .error (.invalidDecimal s)
  | .num q => jsBigIntOfNumber q

/-- `encodeFunctionData` for `propose(token, amount, to, reason)`; the amount
is already a bigint at this point, so only the range check applies to it. -/
def encodePropose (token : String) (amount : Int) (toAddr : String) (reason : String) :
    Except JsError CallData := do
  let t ← abiAddress token
  let a ← uint256Bound amount
  let r ← abiAddress toAddr
  pure (CallData.propose t a r reason)

/-- `encodeFunctionData` for `vote(proposalId, support)`; the raw
`string | number` proposalId goes through the `BigInt` coercion. -/
def encodeVote (proposalId : StrNum) (support : Bool) : Except JsError CallData := do
  let n ← abiUint256 proposalId
  pure (CallData.vote n support)

/-- `encodeFunctionData` for `execute(proposalId)`. -/
def encodeExecute (proposalId : StrNum) : Except JsError CallData := do
  let n ← abiUint256 proposalId
  pure (CallData.execute n)

/-- `encodeFunctionData` for `addMember(newMember)`. -/
def encodeAddMember (newMember : String) : Except JsError CallData := do
  let m ← abiAddress newMember
  pure (CallData.addMember m)

/-- `encodeFunctionData` for `removeMember(member)`. -/
def encodeRemoveMember (member : String) : Except JsError CallData := do
  let m ← abiAddress member
  pure (CallData.removeMember m)

/-- `encodeFunctionData` for `setMinVotes(minVotes)`. -/
def encodeSetMinVotes (minVotes : StrNum) : Except JsError CallData := do
  let n ← abiUint256 minVotes
  pure (CallData.setMinVotes n)

/-- `encodeFunctionData` for `setVotingPeriod(period)`. -/
def encodeSetVotingPeriod (period : StrNum) : Except JsError CallData := do
  let n ← abiUint256 period
  pure (CallData.setVotingPeriod n)

/-! ## The provider and its seven actions -/

/-- The provider instance: its only state is the contract address captured at
construction. -/
structure SquadSafeActionProvider where
  contractAddress : String
deriving DecidableEq, Repr

/-- The constructor (lines 59 to 66): reads `SQUADSAFE_VAULT_ADDRESS` once at
process configuration time and throws if it is unset; an empty string is
falsy in JavaScript and also rejected. -/
def mkSquadSafeActionProvider (envVaultAddress : Option String) :
    Except JsError SquadSafeActionProvider :=
  match envVaultAddress with
  | none => .error (.thrown "SQUADSAFE_VAULT_ADDRESS environment variable not set")
  | some a =>
    if a.isEmpty then .error (.thrown "SQUADSAFE_VAULT_ADDRESS environment variable not set")
    else .ok ⟨a⟩

/-- `await walletProvider.sendTransaction(req)` followed by
`return { success: true, txHash }`. There is no try/catch in the source, so
a submitter failure propagates as the raw exception. The second component
is the submission trace: the request appears exactly when the submitter was
invoked, whether or not it succeeded. -/
def sendTransaction (submit : Submitter) (req : TxRequest) :
    Except JsError ActionResult × List TxRequest :=
  match submit req with
  | .error m => (.error (.submitterRaised m), [req])
  | .ok h => (.ok ⟨true, h⟩, [req])

/-- Arguments of `propose` (zod `ProposeSchema`); the source field `to` is
named `toAddr` here because `to` is a reserved word in Lean. -/
structure ProposeArgs where
  token : String
  amount : StrNum
  toAddr : String
  reason : String
deriving DecidableEq, Repr

/-- Arguments of `voteOnProposal` (zod `VoteOnProposalSchema`). -/
structure VoteArgs where
  proposalId : StrNum
  support : Bool
deriving DecidableEq, Repr

/-- Arguments of `executeProposal` (zod `ExecuteProposalSchema`). -/
structure ExecuteArgs where
  proposalId : StrNum
deriving DecidableEq, Repr

/-- Arguments of `addMember` (zod `AddMemberSchema`). -/
structure AddMemberArgs where
  newMember : String
deriving DecidableEq, Repr

/-- Arguments of `removeMember` (zod `RemoveMemberSchema`). -/
structure RemoveMemberArgs where
  member : String
deriving DecidableEq, Repr

/-- Arguments of `setMinVotes` (zod `SetMinVotesSchema`). -/
structure SetMinVotesArgs where
  minVotes : StrNum
deriving DecidableEq, Repr

/-- Arguments of `setVotingPeriod` (zod `SetVotingPeriodSchema`). -/
structure SetVotingPeriodArgs where
  period : StrNum
deriving DecidableEq, Repr

/-- Lines 78 to 118: validate token and recipient with `isAddress`, reject
`Number(amount) <= 0`, coerce the amount, encode, and submit with the fixed
contract address and zero value. -/
def propose (submit : Submitter) (p : SquadSafeActionProvider) (args : ProposeArgs) :
    Except JsError ActionResult × List TxRequest :=
  if !isAddress args.token then (.error (.thrown "Invalid token address"), [])
  else if !isAddress args.toAddr then (.error (.thrown "Invalid recipient address"), [])
  else if jsLeZero (jsNumber args.amount) then (.error (.thrown "Amount must be positive"), [])
  else
    match coerceAmount args.amount with
    | .error e => (.error e, [])
    | .ok parsedAmount =>
      match encodePropose args.token parsedAmount args.toAddr args.reason with
      | .error e => (.error e, [])
      | .ok data => sendTransaction submit ⟨p.contractAddress, 0, data⟩

/-- Lines 130 to 158: reject `!proposalId || Number(proposalId) < 0`, encode
the raw proposalId, and submit. -/
def voteOnProposal (submit : Submitter) (p : SquadSafeActionProvider) (args : VoteArgs) :
    Except JsError ActionResult × List TxRequest :=
  if !truthy args.proposalId || jsLtZero (jsNumber args.proposalId) then
    (.error (.thrown "Invalid proposalId"), [])
  else
    match encodeVote args.proposalId args.support with
    | .error e => (.error e, [])
    | .ok data => sendTransaction submit ⟨p.contractAddress, 0, data⟩

/-- Lines 170 to 198: same guard as `voteOnProposal`, then encode and submit. -/
def executeProposal (submit : Submitter) (p : SquadSafeActionProvider) (args : ExecuteArgs) :
    Except JsError ActionResult × List TxRequest :=
  if !truthy args.proposalId || jsLtZero (jsNumber args.proposalId) then
    (.error (.thrown "Invalid proposalId"), [])
  else
    match encodeExecute args.proposalId with
    | .error e => (.error e, [])
    | .ok data => sendTransaction submit ⟨p.contractAddress, 0, data⟩

/-- Lines 206 to 223: validate the member address, encode, submit. -/
def addMember (submit : Submitter) (p : SquadSafeActionProvider) (args : AddMemberArgs) :
    Except JsError ActionResult × List TxRequest :=
  if !isAddress args.newMember then (.error (.thrown "Invalid member address"), [])
  else
    match encodeAddMember args.newMember with
    | .error e => (.error e, [])
    | .ok data => sendTransaction submit ⟨p.contractAddress, 0, data⟩

/-- Lines 231 to 248: validate the member address, encode, submit. -/
def removeMember (submit : Submitter) (p : SquadSafeActionProvider) (args : RemoveMemberArgs) :
    Except JsError ActionResult × List TxRequest :=
  if !isAddress args.member then (.error (.thrown "Invalid member address"), [])
  else
    match encodeRemoveMember args.member with
    | .error e => (.error e, [])
    | .ok data => sendTransaction submit ⟨p.contractAddress, 0, data⟩

/-- Lines 256 to 273: reject `Number(minVotes) <= 0`, encode the raw value,
submit. -/
def setMinVotes (submit : Submitter) (p : SquadSafeActionProvider) (args : SetMinVotesArgs) :
    Except JsError ActionResult × List TxRequest :=
  if jsLeZero (jsNumber args.minVotes) then (.error (.thrown "minVotes must be positive"), [])
  else
    match encodeSetMinVotes args.minVotes with
    | .error e => (.error e, [])
    | .ok data => sendTransaction submit ⟨p.contractAddress, 0, data⟩

/-- Lines 281 to 298: reject `Number(period) <= 0`, encode the raw value,
submit. -/
def setVotingPeriod (submit : Submitter) (p : SquadSafeActionProvider) (args : SetVotingPeriodArgs) :
    Except JsError ActionResult × List TxRequest :=
  if jsLeZero (jsNumber args.period) then (.error (.thrown "period must be positive"), [])
  else
    match encodeSetVotingPeriod args.period with
    | .error e => (.error e, [])
    | .ok data => sendTransaction submit ⟨p.contractAddress, 0, data⟩

/-- A dispatched invocation: one registered action name with its typed
arguments. The decorator registration makes the set of names closed; unknown
tool names are rejected upstream by the AgentKit framework and never reach
these methods. -/
inductive ActionCall where
  | propose (args : ProposeArgs)
  | voteOnProposal (args : VoteArgs)
  | executeProposal (args : ExecuteArgs)
  | addMember (args : AddMemberArgs)
  | removeMember (args : RemoveMemberArgs)
  | setMinVotes (args : SetMinVotesArgs)
  | setVotingPeriod (args : SetVotingPeriodArgs)
deriving DecidableEq, Repr

/-- Dispatch of a registered action name to its method. -/
def dispatch (submit : Submitter) (p : SquadSafeActionProvider) :
    ActionCall → Except JsError ActionResult × List TxRequest
  | .propose a => propose submit p a
  | .voteOnProposal a => voteOnProposal submit p a
  | .executeProposal a => executeProposal submit p a
  | .addMember a => addMember submit p a
  | .removeMember a => removeMember submit p a
  | .setMinVotes a => setMinVotes submit p a
  | .setVotingPeriod a => setVotingPeriod submit p a

/-! ## Concrete instances used in witnesses and counterexamples -/

/-- A vault address as configured in the environment. -/
def demoVault : String := "0x00000000000000000000000000000000000000aa"

/-- A provider constructed with that vault address. -/
def demoProvider : SquadSafeActionProvider := ⟨demoVault⟩

/-- A submitter that always succeeds with a fixed transaction hash. -/
def demoSubmit : Submitter := fun _ => .ok "0xhash123"

/-- A submitter whose provider raised a network timeout. -/
def timeoutSubmit : Submitter := fun _ => .error "connect ETIMEDOUT 10.0.0.7:8545"

/-- The zero address (used as the native-token marker in the e2e test). -/
def zeroAddr : String := "0x0000000000000000000000000000000000000000"

/-- A valid all-lowercase recipient address. -/
def recipAddr : String := "0x8b3a350cf5c34c9194ca3a545d8c2a0a6a548820"

/-- The EIP-55 reference address in lowercase. -/
def lcAddr : String := "0x5aaeb6053f3e94c9b9a09f33669435e7ef1beaed"

/-- The same address in all-uppercase hex. -/
def capsAddr : String := "0x5AAEB6053F3E94C9B9A09F33669435E7EF1BEAED"

/-! ## Shared helper lemmas -/

theorem sendTransaction_snd (submit : Submitter) (req : TxRequest) :
    (sendTransaction submit req).2 = [req] := by
  unfold sendTransaction
  cases submit req <;> rfl

theorem sendTransaction_fst_ok (submit : Submitter) (req : TxRequest) (h : String)
    (hs : submit req = Except.ok h) :
    (sendTransaction submit req).1 = Except.ok ⟨true, h⟩ := by
  unfold sendTransaction
  rw [hs]

theorem sendTransaction_fst_err (submit : Submitter) (req : TxRequest) (m : String)
    (hs : submit req = Except.error m) :
    (sendTransaction submit req).1 = Except.error (JsError.submitterRaised m) := by
  unfold sendTransaction
  rw [hs]

theorem sendTransaction_success (submit : Submitter) (req : TxRequest) (r : ActionResult)
    (h : (sendTransaction submit req).1 = Except.ok r) : r.success = true := by
  unfold sendTransaction at h
  cases hs : submit req <;> rw [hs] at h
  · cases h
  · cases h
    rfl

/-- Every path of `propose` either throws before any submission, or passes
both address validations, passes the positivity check, coerces and encodes,
and ends in exactly the `sendTransaction` call on the fixed target. -/
theorem propose_shape (submit : Submitter) (p : SquadSafeActionProvider) (a : ProposeArgs) :
    (∃ e, propose submit p a = (Except.error e, [])) ∨
    (∃ d n, isAddress a.token = true ∧ isAddress a.toAddr = true ∧
      jsLeZero (jsNumber a.amount) = false ∧
      coerceAmount a.amount = Except.ok n ∧
      encodePropose a.token n a.toAddr a.reason = Except.ok d ∧
      propose submit p a = sendTransaction submit ⟨p.contractAddress, 0, d⟩) := by
  cases h1 : isAddress a.token with
  | false => exact Or.inl ⟨.thrown "Invalid token address", by simp [propose, h1]⟩
  | true =>
    cases h2 : isAddress a.toAddr with
    | false => exact Or.inl ⟨.thrown "Invalid recipient address", by simp [propose, h1, h2]⟩
    | true =>
      cases h3 : jsLeZero (jsNumber a.amount) with
      | true => exact Or.inl ⟨.thrown "Amount must be positive", by simp [propose, h1, h2, h3]⟩
      | false =>
        cases hc : coerceAmount a.amount with
        | error e => exact Or.inl ⟨e, by simp [propose, h1, h2, h3, hc]⟩
        | ok n =>
          cases he : encodePropose a.token n a.toAddr a.reason with
          | error e => exact Or.inl ⟨e, by simp [propose, h1, h2, h3, hc, he]⟩
          | ok d =>
            exact Or.inr ⟨d, n, rfl, rfl, rfl, rfl, he, by simp [propose, h1, h2, h3, hc, he]⟩

/-- Path analysis for `voteOnProposal`. -/
theorem voteOnProposal_shape (submit : Submitter) (p : SquadSafeActionProvider) (a : VoteArgs) :
    (∃ e, voteOnProposal submit p a = (Except.error e, [])) ∨
    (∃ d, (!truthy a.proposalId || jsLtZero (jsNumber a.proposalId)) = false ∧
      encodeVote a.proposalId a.support = Except.ok d ∧
      voteOnProposal submit p a = sendTransaction submit ⟨p.contractAddress, 0, d⟩) := by
  cases hg : (!truthy a.proposalId || jsLtZero (jsNumber a.proposalId)) with
  | true => exact Or.inl ⟨.thrown "Invalid proposalId", by simp [voteOnProposal, hg]⟩
  | false =>
    cases he : encodeVote a.proposalId a.support with
    | error e => exact Or.inl ⟨e, by simp [voteOnProposal, hg, he]⟩
    | ok d => exact Or.inr ⟨d, rfl, rfl, by simp [voteOnProposal, hg, he]⟩

/-- Path analysis for `executeProposal`. -/
theorem executeProposal_shape (submit : Submitter) (p : SquadSafeActionProvider) (a : ExecuteArgs) :
    (∃ e, executeProposal submit p a = (Except.error e, [])) ∨
    (∃ d, (!truthy a.proposalId || jsLtZero (jsNumber a.proposalId)) = false ∧
      encodeExecute a.proposalId = Except.ok d ∧
      executeProposal submit p a = sendTransaction submit ⟨p.contractAddress, 0, d⟩) := by
  cases hg : (!truthy a.proposalId || jsLtZero (jsNumber a.proposalId)) with
  | true => exact Or.inl ⟨.thrown "Invalid proposalId", by simp [executeProposal, hg]⟩
  | false =>
    cases he : encodeExecute a.proposalId with
    | error e => exact Or.inl ⟨e, by simp [executeProposal, hg, he]⟩
    | ok d => exact Or.inr ⟨d, rfl, rfl, by simp [executeProposal, hg, he]⟩

/-- Path analysis for `addMember`. -/
theorem addMember_shape (submit : Submitter) (p : SquadSafeActionProvider) (a : AddMemberArgs) :
    (∃ e, addMember submit p a = (Except.error e, [])) ∨
    (∃ d, isAddress a.newMember = true ∧
      encodeAddMember a.newMember = Except.ok d ∧
      addMember submit p a = sendTransaction submit ⟨p.contractAddress, 0, d⟩) := by
  cases h1 : isAddress a.newMember with
  | false => exact Or.inl ⟨.thrown "Invalid member address", by simp [addMember, h1]⟩
  | true =>
    cases he : encodeAddMember a.newMember with
    | error e => exact Or.inl ⟨e, by simp [addMember, h1, he]⟩
    | ok d => exact Or.inr ⟨d, rfl, rfl, by simp [addMember, h1, he]⟩

/-- Path analysis for `removeMember`. -/
theorem removeMember_shape (submit : Submitter) (p : SquadSafeActionProvider) (a : RemoveMemberArgs) :
    (∃ e, removeMember submit p a = (Except.error e, [])) ∨
    (∃ d, isAddress a.member = true ∧
      encodeRemoveMember a.member = Except.ok d ∧
      removeMember submit p a = sendTransaction submit ⟨p.contractAddress, 0, d⟩) := by
  cases h1 : isAddress a.member with
  | false => exact Or.inl ⟨.thrown "Invalid member address", by simp [removeMember, h1]⟩
  | true =>
    cases he : encodeRemoveMember a.member with
    | error e => exact Or.inl ⟨e, by simp [removeMember, h1, he]⟩
    | ok d => exact Or.inr ⟨d, rfl, rfl, by simp [removeMember, h1, he]⟩

/-- Path analysis for `setMinVotes`. -/
theorem setMinVotes_shape (submit : Submitter) (p : SquadSafeActionProvider) (a : SetMinVotesArgs) :
    (∃ e, setMinVotes submit p a = (Except.error e, [])) ∨
    (∃ d, jsLeZero (jsNumber a.minVotes) = false ∧
      encodeSetMinVotes a.minVotes = Except.ok d ∧
      setMinVotes submit p a = sendTransaction submit ⟨p.contractAddress, 0, d⟩) := by
  cases h1 : jsLeZero (jsNumber a.minVotes) with
  | true => exact Or.inl ⟨.thrown "minVotes must be positive", by simp [setMinVotes, h1]⟩
  | false =>
    cases he : encodeSetMinVotes a.minVotes with
    | error e => exact Or.inl ⟨e, by simp [setMinVotes, h1, he]⟩
    | ok d => exact Or.inr ⟨d, rfl, rfl, by simp [setMinVotes, h1, he]⟩

/-- Path analysis for `setVotingPeriod`. -/
theorem setVotingPeriod_shape (submit : Submitter) (p : SquadSafeActionProvider)
    (a : SetVotingPeriodArgs) :
    (∃ e, setVotingPeriod submit p a = (Except.error e, [])) ∨
    (∃ d, jsLeZero (jsNumber a.period) = false ∧
      encodeSetVotingPeriod a.period = Except.ok d ∧
      setVotingPeriod submit p a = sendTransaction submit ⟨p.contractAddress, 0, d⟩) := by
  cases h1 : jsLeZero (jsNumber a.period) with
  | true => exact Or.inl ⟨.thrown "period must be positive", by simp [setVotingPeriod, h1]⟩
  | false =>
    cases he : encodeSetVotingPeriod a.period with
    | error e => exact Or.inl ⟨e, by simp [setVotingPeriod, h1, he]⟩
    | ok d => exact Or.inr ⟨d, rfl, rfl, by simp [setVotingPeriod, h1, he]⟩

/-- Provenance of submitted call data: the data is exactly the output of the
corresponding action encoder on the raw arguments, and every address-typed
argument passed `isAddress` validation. -/
def dataFromValidatedArgs : ActionCall → CallData → Prop
  | .propose a, d => isAddress a.token = true ∧ isAddress a.toAddr = true ∧
      ∃ n, coerceAmount a.amount = Except.ok n ∧
        encodePropose a.token n a.toAddr a.reason = Except.ok d
  | .voteOnProposal a, d => encodeVote a.proposalId a.support = Except.ok d
  | .executeProposal a, d => encodeExecute a.proposalId = Except.ok d
  | .addMember a, d => isAddress a.newMember = true ∧ encodeAddMember a.newMember = Except.ok d
  | .removeMember a, d => isAddress a.member = true ∧ encodeRemoveMember a.member = Except.ok d
  | .setMinVotes a, d => encodeSetMinVotes a.minVotes = Except.ok d
  | .setVotingPeriod a, d => encodeSetVotingPeriod a.period = Except.ok d

/-- Validity of a dispatched invocation: every validation guard of the
invoked action passes and its encoder succeeds on the arguments. These are
exactly the conditions under which the JavaScript method reaches its
`sendTransaction` call. -/
def validCall : ActionCall → Prop
  | .propose a => isAddress a.token = true ∧ isAddress a.toAddr = true ∧
      jsLeZero (jsNumber a.amount) = false ∧
      ∃ n, coerceAmount a.amount = Except.ok n ∧
        ∃ d, encodePropose a.token n a.toAddr a.reason = Except.ok d
  | .voteOnProposal a => (!truthy a.proposalId || jsLtZero (jsNumber a.proposalId)) = false ∧
      ∃ d, encodeVote a.proposalId a.support = Except.ok d
  | .executeProposal a => (!truthy a.proposalId || jsLtZero (jsNumber a.proposalId)) = false ∧
      ∃ d, encodeExecute a.proposalId = Except.ok d
  | .addMember a => isAddress a.newMember = true ∧
      ∃ d, encodeAddMember a.newMember = Except.ok d
  | .removeMember a => isAddress a.member = true ∧
      ∃ d, encodeRemoveMember a.member = Except.ok d
  | .setMinVotes a => jsLeZero (jsNumber a.minVotes) = false ∧
      ∃ d, encodeSetMinVotes a.minVotes = Except.ok d
  | .setVotingPeriod a => jsLeZero (jsNumber a.period) = false ∧
      ∃ d, encodeSetVotingPeriod a.period = Except.ok d

/-- Every dispatched invocation either throws with an empty submission trace,
or submits exactly the call built from validated arguments, with the fixed
contract address and zero value. -/
theorem dispatch_shape (submit : Submitter) (p : SquadSafeActionProvider) (call : ActionCall) :
    (∃ e, dispatch submit p call = (Except.error e, [])) ∨
    (∃ d, dataFromValidatedArgs call d ∧
      dispatch submit p call = sendTransaction submit ⟨p.contractAddress, 0, d⟩) := by
  cases call with
  | propose a =>
    rcases propose_shape submit p a with ⟨e, hEq⟩ | ⟨d, n, h1, h2, _, hc, he, hEq⟩
    · exact Or.inl ⟨e, hEq⟩
    · exact Or.inr ⟨d, ⟨h1, h2, n, hc, he⟩, hEq⟩
  | voteOnProposal a =>
    rcases voteOnProposal_shape submit p a with ⟨e, hEq⟩ | ⟨d, _, he, hEq⟩
    · exact Or.inl ⟨e, hEq⟩
    · exact Or.inr ⟨d, he, hEq⟩
  | executeProposal a =>
    rcases executeProposal_shape submit p a with ⟨e, hEq⟩ | ⟨d, _, he, hEq⟩
    · exact Or.inl ⟨e, hEq⟩
    · exact Or.inr ⟨d, he, hEq⟩
  | addMember a =>
    rcases addMember_shape submit p a with ⟨e, hEq⟩ | ⟨d, h1, he, hEq⟩
    · exact Or.inl ⟨e, hEq⟩
    · exact Or.inr ⟨d, ⟨h1, he⟩, hEq⟩
  | removeMember a =>
    rcases removeMember_shape submit p a with ⟨e, hEq⟩ | ⟨d, h1, he, hEq⟩
    · exact Or.inl ⟨e, hEq⟩
    · exact Or.inr ⟨d, ⟨h1, he⟩, hEq⟩
  | setMinVotes a =>
    rcases setMinVotes_shape submit p a with ⟨e, hEq⟩ | ⟨d, _, he, hEq⟩
    · exact Or.inl ⟨e, hEq⟩
    · exact Or.inr ⟨d, he, hEq⟩
  | setVotingPeriod a =>
    rcases setVotingPeriod_shape submit p a with ⟨e, hEq⟩ | ⟨d, _, he, hEq⟩
    · exact Or.inl ⟨e, hEq⟩
    · exact Or.inr ⟨d, he, hEq⟩

/-- A valid invocation reaches the submission step: the dispatched action is
exactly `sendTransaction` on some encoded request. -/
theorem dispatch_valid_eq (submit : Submitter) (p : SquadSafeActionProvider) (call : ActionCall)
    (hv : validCall call) :
    ∃ d, dispatch submit p call = sendTransaction submit ⟨p.contractAddress, 0, d⟩ := by
  cases call with
  | propose a =>
    obtain ⟨h1, h2, h3, n, hc, d, he⟩ := hv
    exact ⟨d, by simp [dispatch, propose, h1, h2, h3, hc, he]⟩
  | voteOnProposal a =>
    obtain ⟨hg, d, he⟩ := hv
    exact ⟨d, by simp [dispatch, voteOnProposal, hg, he]⟩
  | executeProposal a =>
    obtain ⟨hg, d, he⟩ := hv
    exact ⟨d, by simp [dispatch, executeProposal, hg, he]⟩
  | addMember a =>
    obtain ⟨h1, d, he⟩ := hv
    exact ⟨d, by simp [dispatch, addMember, h1, he]⟩
  | removeMember a =>
    obtain ⟨h1, d, he⟩ := hv
    exact ⟨d, by simp [dispatch, removeMember, h1, he]⟩
  | setMinVotes a =>
    obtain ⟨h1, d, he⟩ := hv
    exact ⟨d, by simp [dispatch, setMinVotes, h1, he]⟩
  | setVotingPeriod a =>
    obtain ⟨h1, d, he⟩ := hv
    exact ⟨d, by simp [dispatch, setVotingPeriod, h1, he]⟩

/-! ## Claim theorems -/

/-- C3: for every action invocation that submits a transaction, the submitted
call targets exactly the contract address fixed in the provider at
construction time (independent of the message arguments), and its
native-currency value is zero. -/
theorem submittedCallTargetFixedValueZero :
    ∀ (submit : Submitter) (p : SquadSafeActionProvider) (call : ActionCall) (req : TxRequest),
      req ∈ (dispatch submit p call).2 →
      req.toAddr = p.contractAddress ∧ req.value = 0 := by
  intro submit p call req hmem
  rcases dispatch_shape submit p call with ⟨e, hEq⟩ | ⟨d, _, hEq⟩
  · rw [hEq] at hmem
    cases hmem
  · rw [hEq, sendTransaction_snd] at hmem
    have h := List.mem_singleton.mp hmem
    subst h
    exact ⟨rfl, rfl⟩

/-- Witness for C3: a concrete vote submission, with the theorem applied to
it. -/
theorem submittedCallTargetFixedValueZero_witness :
    (⟨demoVault, 0, CallData.vote 1 true⟩ : TxRequest) ∈
        (dispatch demoSubmit demoProvider (.voteOnProposal ⟨.num 1, true⟩)).2 ∧
      ((⟨demoVault, 0, CallData.vote 1 true⟩ : TxRequest).toAddr =
          demoProvider.contractAddress ∧
        (⟨demoVault, 0, CallData.vote 1 true⟩ : TxRequest).value = 0) :=
  have hm : (⟨demoVault, 0, CallData.vote 1 true⟩ : TxRequest) ∈
      (dispatch demoSubmit demoProvider (.voteOnProposal ⟨.num 1, true⟩)).2 := by
    have h : (dispatch demoSubmit demoProvider (.voteOnProposal ⟨.num 1, true⟩)).2 =
        [⟨demoVault, 0, CallData.vote 1 true⟩] := rfl
    rw [h]
    exact List.mem_singleton.mpr rfl
  ⟨hm,
    submittedCallTargetFixedValueZero demoSubmit demoProvider
      (.voteOnProposal ⟨.num 1, true⟩) ⟨demoVault, 0, CallData.vote 1 true⟩ hm⟩

/-- C4: every submitted request carries call data produced by the action
encoder on the raw arguments, with every address-typed field having passed
`isAddress` validation first; no execution path submits data of any other
provenance. -/
theorem encodingOnlyAfterAddressValidation :
    ∀ (submit : Submitter) (p : SquadSafeActionProvider) (call : ActionCall) (req : TxRequest),
      req ∈ (dispatch submit p call).2 → dataFromValidatedArgs call req.data := by
  intro submit p call req hmem
  rcases dispatch_shape submit p call with ⟨e, hEq⟩ | ⟨d, hd, hEq⟩
  · rw [hEq] at hmem
    cases hmem
  · rw [hEq, sendTransaction_snd] at hmem
    have h := List.mem_singleton.mp hmem
    subst h
    exact hd

/-- Witness for C4: the concrete propose submission of the 0.1 scenario,
with the theorem applied to it. -/
theorem encodingOnlyAfterAddressValidation_witness :
    (⟨demoVault, 0, CallData.propose zeroAddr 100000000000000000 recipAddr "test"⟩ : TxRequest) ∈
        (dispatch demoSubmit demoProvider
          (.propose ⟨zeroAddr, .str "0.1", recipAddr, "test"⟩)).2 ∧
      dataFromValidatedArgs (.propose ⟨zeroAddr, .str "0.1", recipAddr, "test"⟩)
        (CallData.propose zeroAddr 100000000000000000 recipAddr "test") :=
  have hm : (⟨demoVault, 0, CallData.propose zeroAddr 100000000000000000 recipAddr "test"⟩ :
      TxRequest) ∈
      (dispatch demoSubmit demoProvider (.propose ⟨zeroAddr, .str "0.1", recipAddr, "test"⟩)).2 := by
    have h : (dispatch demoSubmit demoProvider
        (.propose ⟨zeroAddr, .str "0.1", recipAddr, "test"⟩)).2 =
        [⟨demoVault, 0, CallData.propose zeroAddr 100000000000000000 recipAddr "test"⟩] := rfl
    rw [h]
    exact List.mem_singleton.mpr rfl
  ⟨hm,
    encodingOnlyAfterAddressValidation demoSubmit demoProvider
      (.propose ⟨zeroAddr, .str "0.1", recipAddr, "test"⟩)
      ⟨demoVault, 0, CallData.propose zeroAddr 100000000000000000 recipAddr "test"⟩ hm⟩

/-- C6: one dispatch submits at most one transaction, and on valid arguments
it submits exactly one and returns success with the submitter hash verbatim. -/
theorem dispatchSubmitsExactlyOnce :
    ∀ (submit : Submitter) (p : SquadSafeActionProvider) (call : ActionCall),
      (dispatch submit p call).2.length ≤ 1 ∧
      (validCall call → ∃ req, (dispatch submit p call).2 = [req] ∧
        ∀ h, submit req = Except.ok h →
          (dispatch submit p call).1 = Except.ok ⟨true, h⟩) := by
  intro submit p call
  constructor
  · rcases dispatch_shape submit p call with ⟨e, hEq⟩ | ⟨d, _, hEq⟩
    · rw [hEq]
      exact Nat.zero_le 1
    · rw [hEq, sendTransaction_snd]
      exact le_refl 1
  · intro hv
    obtain ⟨d, hEq⟩ := dispatch_valid_eq submit p call hv
    refine ⟨⟨p.contractAddress, 0, d⟩, ?_, ?_⟩
    · rw [hEq, sendTransaction_snd]
    · intro h hs
      rw [hEq]
      exact sendTransaction_fst_ok submit _ h hs

/-- Witness for C6: the concrete valid vote invocation submits once and
returns the demo submitter hash. -/
theorem dispatchSubmitsExactlyOnce_witness :
    validCall (.voteOnProposal ⟨.num 1, true⟩) ∧
      (∃ req, (dispatch demoSubmit demoProvider (.voteOnProposal ⟨.num 1, true⟩)).2 = [req] ∧
        ∀ h, demoSubmit req = Except.ok h →
          (dispatch demoSubmit demoProvider (.voteOnProposal ⟨.num 1, true⟩)).1 =
            Except.ok ⟨true, h⟩) :=
  have hv : validCall (.voteOnProposal ⟨.num 1, true⟩) :=
    ⟨by decide, CallData.vote 1 true, rfl⟩
  ⟨hv, (dispatchSubmitsExactlyOnce demoSubmit demoProvider (.voteOnProposal ⟨.num 1, true⟩)).2 hv⟩

/-- C1 counterexample: the claim says submitter failures are caught and
converted to a sanitized `success: false` value. On the code, a propose with
valid arguments whose submitter raises a network timeout returns the raw
exception untouched, containing the raw provider error text; no
`success: false` value exists. -/
theorem submitterFailureLeaksRawText :
    dispatch timeoutSubmit demoProvider (.propose ⟨zeroAddr, .str "0.1", recipAddr, "pay"⟩) =
      (Except.error (.submitterRaised "connect ETIMEDOUT 10.0.0.7:8545"),
       [⟨demoVault, 0, CallData.propose zeroAddr 100000000000000000 recipAddr "pay"⟩]) := by
  rfl

/-- C1 as amended: nothing is caught at the dispatcher boundary. Every value
the dispatcher actually returns has `success = true`; when the submitter was
invoked and failed, the result is exactly the propagated raw submitter
exception; no `success: false` shape is ever produced. -/
theorem errorsPropagateUncaught :
    ∀ (submit : Submitter) (p : SquadSafeActionProvider) (call : ActionCall),
      (∀ r, (dispatch submit p call).1 = Except.ok r → r.success = true) ∧
      (∀ req m, (dispatch submit p call).2 = [req] → submit req = Except.error m →
        (dispatch submit p call).1 = Except.error (JsError.submitterRaised m)) := by
  intro submit p call
  rcases dispatch_shape submit p call with ⟨e, hEq⟩ | ⟨d, _, hEq⟩
  · constructor
    · intro r hr
      rw [hEq] at hr
      cases hr
    · intro req m htr _
      rw [hEq] at htr
      cases htr
  · constructor
    · intro r hr
      rw [hEq] at hr
      exact sendTransaction_success submit _ r hr
    · intro req m htr hs
      rw [hEq, sendTransaction_snd] at htr
      rw [hEq]
      cases htr
      exact sendTransaction_fst_err submit _ m hs

/-- Witness for C1: the amended theorem applied to the concrete timed-out
propose invocation. -/
theorem errorsPropagateUncaught_witness :
    (dispatch timeoutSubmit demoProvider (.propose ⟨zeroAddr, .str "0.1", recipAddr, "pay"⟩)).2 =
        [⟨demoVault, 0, CallData.propose zeroAddr 100000000000000000 recipAddr "pay"⟩] ∧
      timeoutSubmit ⟨demoVault, 0, CallData.propose zeroAddr 100000000000000000 recipAddr "pay"⟩ =
        Except.error "connect ETIMEDOUT 10.0.0.7:8545" ∧
      (dispatch timeoutSubmit demoProvider
          (.propose ⟨zeroAddr, .str "0.1", recipAddr, "pay"⟩)).1 =
        Except.error (JsError.submitterRaised "connect ETIMEDOUT 10.0.0.7:8545") :=
  ⟨rfl, rfl,
    (errorsPropagateUncaught timeoutSubmit demoProvider
        (.propose ⟨zeroAddr, .str "0.1", recipAddr, "pay"⟩)).2
      ⟨demoVault, 0, CallData.propose zeroAddr 100000000000000000 recipAddr "pay"⟩
      "connect ETIMEDOUT 10.0.0.7:8545" rfl rfl⟩

/-- C5: the documented scenario. Dispatching propose with the zero token
address, amount "0.1" (a decimal string, scaled with 18 decimals by
`parseEther`), a valid recipient and a reason encodes the amount as the
integer 100000000000000000 and produces one submitted call with value 0
whose target is the fixed vault address. -/
theorem proposeScenarioPointOne :
    dispatch demoSubmit demoProvider (.propose ⟨zeroAddr, .str "0.1", recipAddr, "test"⟩) =
      (Except.ok ⟨true, "0xhash123"⟩,
       [⟨demoProvider.contractAddress, 0,
         CallData.propose zeroAddr 100000000000000000 recipAddr "test"⟩]) ∧
    parseEther "0.1" = some 100000000000000000 :=
  ⟨rfl, rfl⟩

/-- C7: dispatching voteOnProposal with a negative proposalId fails with the
thrown validation error and an empty submission trace: the submitter is
never invoked and nothing is encoded or submitted. -/
theorem negativeProposalIdRejected :
    ∀ (submit : Submitter) (p : SquadSafeActionProvider) (pid : StrNum) (b : Bool),
      jsLtZero (jsNumber pid) = true →
      dispatch submit p (.voteOnProposal ⟨pid, b⟩) =
        (Except.error (.thrown "Invalid proposalId"), []) := by
  intro submit p pid b h
  simp [dispatch, voteOnProposal, h]

/-- Witness for C7: proposalId equal to the number minus one. -/
theorem negativeProposalIdRejected_witness :
    jsLtZero (jsNumber (.num (-1))) = true ∧
      dispatch demoSubmit demoProvider (.voteOnProposal ⟨.num (-1), true⟩) =
        (Except.error (.thrown "Invalid proposalId"), []) :=
  ⟨by decide,
    negativeProposalIdRejected demoSubmit demoProvider (.num (-1)) true (by decide)⟩

/-- C9: proposalId 0 and the empty string are falsy, so both voteOnProposal
and executeProposal reject them with "Invalid proposalId" and never invoke
the submitter, even though 0 is a non-negative integer. -/
theorem zeroProposalIdRejected :
    ∀ (submit : Submitter) (p : SquadSafeActionProvider) (b : Bool),
      dispatch submit p (.voteOnProposal ⟨.num 0, b⟩) =
        (Except.error (.thrown "Invalid proposalId"), []) ∧
      dispatch submit p (.voteOnProposal ⟨.str "", b⟩) =
        (Except.error (.thrown "Invalid proposalId"), []) ∧
      dispatch submit p (.executeProposal ⟨.num 0⟩) =
        (Except.error (.thrown "Invalid proposalId"), []) ∧
      dispatch submit p (.executeProposal ⟨.str ""⟩) =
        (Except.error (.thrown "Invalid proposalId"), []) :=
  fun _ _ _ => ⟨rfl, rfl, rfl, rfl⟩

/-- C2 counterexample: the claim says every non-numeric amount fails amount
resolution with a typed validation error. On the code, the non-numeric
string "abc" passes the positivity check (a NaN comparison is false), so
validation does not reject it; the failure that surfaces is the untyped
viem decimal-parse exception thrown later by `parseEther`. -/
theorem nonNumericAmountEscapesValidation :
    jsLeZero (jsNumber (.str "abc")) = false ∧
      dispatch demoSubmit demoProvider (.propose ⟨zeroAddr, .str "abc", recipAddr, "r"⟩) =
        (Except.error (.invalidDecimal "abc"), []) :=
  ⟨by decide, rfl⟩

/-- C2 as amended: amounts whose JavaScript numeric value is at most 0 are
rejected by a thrown plain Error (not a structured field-carrying error)
with nothing submitted; non-numeric strings are not rejected by validation:
"abc" passes the check and `parseEther` throws, while "." passes the check,
parses to 0, and a zero-amount proposal is submitted. -/
theorem amountValidationBehavior :
    (∀ (submit : Submitter) (p : SquadSafeActionProvider) (a : ProposeArgs),
      isAddress a.token = true → isAddress a.toAddr = true →
      jsLeZero (jsNumber a.amount) = true →
      dispatch submit p (.propose a) =
        (Except.error (.thrown "Amount must be positive"), [])) ∧
    dispatch demoSubmit demoProvider (.propose ⟨zeroAddr, .str ".", recipAddr, "r"⟩) =
      (Except.ok ⟨true, "0xhash123"⟩,
       [⟨demoVault, 0, CallData.propose zeroAddr 0 recipAddr "r"⟩]) := by
  constructor
  · intro submit p a h1 h2 h3
    simp [dispatch, propose, h1, h2, h3]
  · rfl

/-- Witness for C2: a negative numeric amount is rejected by the positivity
check with an empty trace. -/
theorem amountValidationBehavior_witness :
    isAddress zeroAddr = true ∧ isAddress recipAddr = true ∧
      jsLeZero (jsNumber (.num (-5))) = true ∧
      dispatch demoSubmit demoProvider (.propose ⟨zeroAddr, .num (-5), recipAddr, "r"⟩) =
        (Except.error (.thrown "Amount must be positive"), []) :=
  ⟨by decide, by decide, by decide,
    amountValidationBehavior.1 demoSubmit demoProvider
      ⟨zeroAddr, .num (-5), recipAddr, "r"⟩ (by decide) (by decide) (by decide)⟩

/-- C10 counterexample: the claim says every positive amount that is not a
safe integer makes the BigInt coercion throw before submission. The number
9007199254740994 (two above the largest safe integer 9007199254740991, and
exactly representable in an IEEE double) is positive and not a safe
integer, yet `BigInt` converts it and the proposal is submitted. -/
theorem nonSafeIntegerAmountSubmits :
    ¬ ((9007199254740994 : ℚ) ≤ 9007199254740991) ∧
      (0 : ℚ) < 9007199254740994 ∧
      dispatch demoSubmit demoProvider
          (.propose ⟨zeroAddr, .num 9007199254740994, recipAddr, "r"⟩) =
        (Except.ok ⟨true, "0xhash123"⟩,
         [⟨demoVault, 0, CallData.propose zeroAddr 9007199254740994 recipAddr "r"⟩]) :=
  ⟨by decide, by decide, rfl⟩

/-- C10 as amended: for a positive numeric amount the positivity check
passes, and then the `BigInt` coercion throws the untyped RangeError exactly
when the number is not an integer, with nothing submitted; the coercion is
total precisely on integer-valued numeric amounts. -/
theorem bigIntCoercionIntegerOnly :
    ∀ (submit : Submitter) (p : SquadSafeActionProvider) (token toA reason : String) (q : ℚ),
      isAddress token = true → isAddress toA = true → 0 < q →
      jsLeZero (jsNumber (.num q)) = false ∧
      (q.den ≠ 1 →
        dispatch submit p (.propose ⟨token, .num q, toA, reason⟩) =
          (Except.error (.rangeNotInteger q), [])) ∧
      (q.den = 1 → coerceAmount (.num q) = Except.ok q.num) := by
  intro submit p token toA reason q h1 h2 hq
  have hle : jsLeZero (jsNumber (.num q)) = false := by
    simp only [jsNumber, jsLeZero]
    exact decide_eq_false (not_le.mpr hq)
  refine ⟨hle, ?_, ?_⟩
  · intro hden
    have hc : coerceAmount (.num q) = Except.error (.rangeNotInteger q) := by
      simp [coerceAmount, jsBigIntOfNumber, hden]
    simp [dispatch, propose, h1, h2, hle, hc]
  · intro hden
    simp [coerceAmount, jsBigIntOfNumber, hden]

/-- Witness for C10: the amended theorem applied at amount one half. -/
theorem bigIntCoercionIntegerOnly_witness :
    isAddress zeroAddr = true ∧ (0 : ℚ) < mkRat 1 2 ∧ (mkRat 1 2).den ≠ 1 ∧
      dispatch demoSubmit demoProvider
          (.propose ⟨zeroAddr, .num (mkRat 1 2), recipAddr, "r"⟩) =
        (Except.error (.rangeNotInteger (mkRat 1 2)), []) :=
  ⟨by decide, by decide, by decide,
    (bigIntCoercionIntegerOnly demoSubmit demoProvider zeroAddr recipAddr "r" (mkRat 1 2)
        (by decide) (by decide) (by decide)).2.1 (by decide)⟩

/-- C8 counterexample: the claim says acceptance is case-insensitive and the
accepted output is canonical checksummed. On the code, the EIP-55 reference
address is accepted in lowercase and in its checksummed casing, but its
all-uppercase casing (same address, letters upcased) is rejected by the
strict checksum branch of viem `isAddress`: acceptance depends on casing. -/
theorem isAddressCaseSensitive :
    isAddress lcAddr = true ∧ isAddress capsAddr = false ∧ lowerAscii capsAddr = lcAddr ∧
      isAddress "0x5aAeb6053F3E94C9b9A09f33669435E7Ef1BeAed" = true :=
  ⟨by decide, by decide, by decide, by decide⟩

/-- The validated-address value the provider actually uses downstream: the
raw input string, passed through unchanged when `isAddress` accepts it.
There is no canonicalisation step anywhere in the source. -/
def validateAddress (s : String) : Option String :=
  if isAddress s then some s else none

/-- C8 as amended: `isAddress` is a boolean predicate over the 20-byte hex
format; all-lowercase well-formed strings are accepted; accepted strings are
used verbatim, so revalidating the (unchanged) accepted value gives the same
result — but there is no canonical checksummed output and acceptance is
case-sensitive (see the counterexample). -/
theorem isAddressCharacterization :
    ∀ a : String,
      (isAddress a = true → addressFormatOk a = true) ∧
      (addressFormatOk a = true → lowerAscii a = a → isAddress a = true) ∧
      (∀ b, validateAddress a = some b → b = a ∧ validateAddress b = validateAddress a) := by
  intro a
  refine ⟨?_, ?_, ?_⟩
  · intro h
    unfold isAddress at h
    exact (Bool.and_eq_true _ _ |>.mp h).1
  · intro hf hl
    unfold isAddress
    rw [hf, hl]
    simp
  · intro b hb
    unfold validateAddress at hb
    by_cases hi : isAddress a = true
    · rw [if_pos hi] at hb
      cases hb
      exact ⟨rfl, rfl⟩
    · rw [if_neg hi] at hb
      cases hb

/-- Witness for C8: the amended theorem applied to the lowercase EIP-55
reference address. -/
theorem isAddressCharacterization_witness :
    addressFormatOk lcAddr = true ∧ lowerAscii lcAddr = lcAddr ∧
      isAddress lcAddr = true ∧
      validateAddress lcAddr = some lcAddr ∧
      validateAddress lcAddr = validateAddress lcAddr :=
  ⟨by decide, by decide,
    (isAddressCharacterization lcAddr).2.1 (by decide) (by decide),
    by decide,
    ((isAddressCharacterization lcAddr).2.2 lcAddr (by decide)).2⟩

end SquadSafe
